import Mathlib

/-!
# Verification of the fleet-records merge pipeline

A shallow embedding of `src/merge-fleet-records.js` (the reconciliation /
merge pipeline, lines 159-295) together with theorems settling the frozen
claims about it.

Conventions of the embedding:
* a JavaScript string is a Lean `String`; `line.split(',')` is
  `String.split` on the comma; `trim` is `String.trim`;
* a JavaScript array of lines is a `List String`; `undefined` results of an
  out-of-range index are `Option.none`;
* JavaScript array indexing with a possibly negative index is `jsIndex`
  (negative index gives `undefined`); `Array.prototype.slice` with a
  possibly negative argument is `jsSlice` / `jsSliceTo`;
* the in-place colour-override loop, which dereferences
  `oldRecords[updateStart + i]` and throws a `TypeError` when that index is
  negative, is modelled as an `Option`-valued fold: `none` means the run
  aborts with the thrown exception;
* each `saveJson`/`writeFileSync` call is modelled as an `Emission` event;
  a run produces the list of emissions made before it finished or aborted.
-/

namespace FleetGen

/-- Split a character list at every occurrence of the separator character
(JS `String.prototype.split` with a one-character separator: no separator
gives one piece, adjacent separators give empty pieces). -/
def splitOnChar (c : Char) : List Char → List (List Char)
  | [] => [[]]
  | d :: rest =>
    match splitOnChar c rest with
    | [] => [[d]]
    | g :: gs => if d = c then [] :: g :: gs else (d :: g) :: gs

/-- JS `s.split(c)` for a one-character separator. -/
def splitChar (s : String) (c : Char) : List String :=
  (splitOnChar c s.data).map String.mk

/-- JS `s.trim()`: drop leading and trailing whitespace. -/
def trimStr (s : String) : String :=
  String.mk (((s.data.dropWhile Char.isWhitespace).reverse.dropWhile
    Char.isWhitespace).reverse)

/-- JS `s.toLowerCase()` (ASCII suffices for the format strings involved). -/
def toLowerStr (s : String) : String :=
  String.mk (s.data.map Char.toLower)

/-- JS `arr.join(sep)` for a one-character separator. -/
def joinWith (sep : Char) (ls : List String) : String :=
  String.mk (List.intercalate [sep] (ls.map String.data))

/-- Split text into trimmed lines (JS `split(/\r?\n/).map(trim)`); splitting
on the newline alone is faithful because `trim` removes any remaining `\r`. -/
def trimmedLines (text : String) : List String :=
  (splitChar text '\n').map trimStr

/-- Lines 179-180: split yesterday's file into trimmed lines, dropping blanks. -/
def cleanLines (text : String) : List String :=
  (trimmedLines text).filter (fun l => l != "")

/-- The regex `/^[0-9]+$/`: a non-empty line made only of decimal digits. -/
def isDigitLine (s : String) : Bool :=
  !s.data.isEmpty && s.data.all Char.isDigit

/-- Lines 66-71, `parseCsvRecords`: trimmed lines, dropping blank lines and
pure-number lines. -/
def parseCsvRecords (text : String) : List String :=
  (trimmedLines text).filter (fun l => l != "" && !(isDigitLine l))

/-- Lines 177-187: load and clean yesterday's data. `none` models an absent
file (no remote match / not downloaded): `oldRecords` stays `[]`.
Otherwise: non-empty trimmed lines, `raw.shift()` (drop the count header),
and `raw.splice(-2, 2)` when at least 2 lines remain. -/
def loadOldRecords : Option String → List String
  | none => []
  | some text =>
    if 2 ≤ ((cleanLines text).drop 1).length
    then ((cleanLines text).drop 1).take (((cleanLines text).drop 1).length - 2)
    else (cleanLines text).drop 1

/-- Lines 190-193: `oldRecords.splice(-10, 10)` when at least 10 records
remain. Returns (defleetBatch, remaining oldRecords). -/
def defleetSplit (oldRecords : List String) : List String × List String :=
  if 10 ≤ oldRecords.length then
    (oldRecords.drop (oldRecords.length - 10), oldRecords.take (oldRecords.length - 10))
  else ([], oldRecords)

/-- `line.split(',')`. -/
def splitCols (line : String) : List String :=
  splitChar line ','

/-- JS `cols[i]` for a natural index: `undefined` (`none`) when out of range. -/
def colAt (cols : List String) (i : Nat) : Option String :=
  cols.get? i

/-- JS `cols[i] || ''` (used only by the error-record projection, line 241). -/
def errGet (cols : List String) (i : Nat) : String :=
  (colAt cols i).getD ""

/-- A record projected through the 7-field vehicle schema (`defleetIdx`,
lines 20-28). Fields are `Option String`: JS `cols[idx]` is `undefined`
when the line has too few columns. -/
structure VehicleRecord where
  license_plate_number : Option String
  license_plate_state : Option String
  year : Option String
  make : Option String
  model : Option String
  color : Option String
  vin : Option String
deriving DecidableEq, Repr

/-- A record projected through the 19-field full schema
(`errorColumnMapping`, lines 31-51). Every field is a `String` because the
projection uses `cols[idx] || ''`. -/
structure ErrorRecord where
  brand : String
  ody_vehicle_id_number : String
  license_plate_number : String
  license_plate_state : String
  year : String
  make : String
  model : String
  color : String
  vin : String
  location_group : String
  location_code : String
  location_name : String
  address_1 : String
  address_2 : String
  city : String
  state : String
  zip : String
  phone_number : String
  vehicle_erac : String
deriving DecidableEq, Repr

/-- A fleet record: only plate number and plate state (lines 261-264). -/
structure FleetRecord where
  license_plate_number : Option String
  license_plate_state : Option String
deriving DecidableEq, Repr

/-- Lines 194-205 / 247-258: project a line through the vehicle schema
(`defleetIdx`): columns 2-8, no `|| ''` fallback. -/
def projectVehicle (line : String) : VehicleRecord :=
  let cols := splitCols line
  { license_plate_number := colAt cols 2
    license_plate_state := colAt cols 3
    year := colAt cols 4
    make := colAt cols 5
    model := colAt cols 6
    color := colAt cols 7
    vin := colAt cols 8 }

/-- Lines 237-244: project a line through the full schema
(`errorColumnMapping`), with the `cols[idx] || ''` fallback on every field. -/
def projectError (line : String) : ErrorRecord :=
  let cols := splitCols line
  { brand := errGet cols 0
    ody_vehicle_id_number := errGet cols 1
    license_plate_number := errGet cols 2
    license_plate_state := errGet cols 3
    year := errGet cols 4
    make := errGet cols 5
    model := errGet cols 6
    color := errGet cols 7
    vin := errGet cols 8
    location_group := errGet cols 9
    location_code := errGet cols 10
    location_name := errGet cols 11
    address_1 := errGet cols 12
    address_2 := errGet cols 13
    city := errGet cols 14
    state := errGet cols 15
    zip := errGet cols 16
    phone_number := errGet cols 17
    vehicle_erac := errGet cols 18 }

/-- Lines 261-264: strip a vehicle record to plate number + plate state. -/
def fleetOf (r : VehicleRecord) : FleetRecord :=
  { license_plate_number := r.license_plate_number
    license_plate_state := r.license_plate_state }

/-- `l.slice(start)` with a possibly negative `start`. -/
def jsSlice (l : List String) (start : Int) : List String :=
  if start < 0 then l.drop ((l.length + start).toNat) else l.drop start.toNat

/-- `l.slice(0, stop)` with a possibly negative `stop`. -/
def jsSliceTo (l : List String) (stop : Int) : List String :=
  if stop < 0 then l.take ((l.length + stop).toNat) else l.take stop.toNat

/-- JS `l[i]` with a possibly negative (`Int`) index: `undefined` when
negative or out of range. -/
def jsIndex (l : List String) (i : Int) : Option String :=
  if i < 0 then none else l.get? i.toNat

/-- Line 55: the fixed word list. -/
def commonWords : List String := ["delta"]

/-- `words[i % words.length]` (lines 219 and 229): `undefined` if the word
list is empty (in JS `i % 0` is `NaN` and indexing by it gives `undefined`;
in Lean `i % 0 = i` and `get?` on `[]` is `none` — same result). -/
def jsWordAt (words : List String) (i : Nat) : Option String :=
  words.get? (i % words.length)

/-- Line 209: `updateStart = oldRecords.length - 10`, a JS number that may
be negative. -/
def updateStartOf (tail : List String) : Int :=
  (tail.length : Int) - 10

/-- Line 210: `updateBatch = oldRecords.slice(updateStart)`. -/
def updateBatchOf (tail : List String) : List String :=
  jsSlice tail (updateStartOf tail)

/-- Lines 211-222: the update projection — vehicle schema with the colour
overridden by `commonWords[i % commonWords.length]`. -/
def projectUpdate (words : List String) (i : Nat) (line : String) : VehicleRecord :=
  { projectVehicle line with color := jsWordAt words i }

/-- Lines 211-222: `updateData = updateBatch.map((line, i) => ...)`. -/
def updateDataOf (words : List String) (tail : List String) : List VehicleRecord :=
  (updateBatchOf tail).enum.map (fun p => projectUpdate words p.1 p.2)

/-- JS array index assignment `cols[n] = v`: in range it overwrites; past
the end it fills the gap with holes, which `join(',')` later renders as
empty strings. -/
def setNth (l : List String) (n : Nat) (v : String) : List String :=
  if n < l.length then l.set n v
  else l ++ List.replicate (n - l.length) "" ++ [v]

/-- `cols.join(',')`. -/
def joinCommas (l : List String) : String :=
  joinWith ',' l

/-- Lines 228-230 (one loop body): split the line, overwrite column 7 with
`commonWords[i % commonWords.length]`, re-join. -/
def transformLine (words : List String) (i : Nat) (line : String) : String :=
  joinCommas (setNth (splitCols line) 7 ((jsWordAt words i).getD ""))

/-- Lines 226-231, the in-place colour-override loop, iterated by remaining
count `k` with current loop counter `i`. Reading `oldRecords[updateStart+i]`
when that index is negative gives `undefined`, and `.split(',')` on it
throws — modelled by `none`. -/
def applyColorFrom (words : List String) (start : Int) :
    List String → Nat → Nat → Option (List String)
  | recs, _, 0 => some recs
  | recs, i, k+1 =>
    match jsIndex recs (start + (i : Int)) with
    | none => none
    | some line =>
      applyColorFrom words start
        (recs.set (start + (i : Int)).toNat (transformLine words i line)) (i+1) k

/-- Lines 226-231: run the in-place loop over the whole update batch. -/
def updateInPlace (words : List String) (tail : List String) : Option (List String) :=
  applyColorFrom words (updateStartOf tail) tail 0 (updateBatchOf tail).length

/-- Lines 237-244: `errorRecords = newRecords.slice(-2).map(...)`. -/
def errorRecordsOf (newRecords : List String) : List ErrorRecord :=
  (jsSlice newRecords (-2)).map projectError

/-- Lines 247-258: `infleetRecords = newRecords.slice(0, -2).map(...)`. -/
def infleetRecordsOf (newRecords : List String) : List VehicleRecord :=
  (jsSliceTo newRecords (-2)).map projectVehicle

/-- Lines 261-264: `fleetRecords = infleetRecords.map(...)`. -/
def fleetRecordsOf (newRecords : List String) : List FleetRecord :=
  (infleetRecordsOf newRecords).map fleetOf

/-- Line 276: `merged = [total.toString(), ...oldRecords, ...newRecords]`. -/
def mergedLines (tail newB : List String) : List String :=
  toString (tail.length + newB.length) :: (tail ++ newB)

/-- Line 280: `merged.join('\n')`. -/
def mergedText (tail newB : List String) : String :=
  joinWith '\n' (mergedLines tail newB)

/-- One output write of a run (a `saveJson` call or the merged-CSV write). -/
inductive Emission
  | defleet (d : List VehicleRecord)
  | update (u : List VehicleRecord)
  | error (e : List ErrorRecord)
  | infleet (r : List VehicleRecord)
  | fleet (f : List FleetRecord)
  | history (h : List VehicleRecord)
  | merged (text : String)
deriving DecidableEq, Repr

/-- The kind of an output write, for statements about which outputs a run
produced. -/
inductive EmissionTag
  | defleetT | updateT | errorT | infleetT | fleetT | historyT | mergedT
deriving DecidableEq, Repr

/-- The tag of an emission. -/
def Emission.tag : Emission → EmissionTag
  | .defleet _ => .defleetT
  | .update _ => .updateT
  | .error _ => .errorT
  | .infleet _ => .infleetT
  | .fleet _ => .fleetT
  | .history _ => .historyT
  | .merged _ => .mergedT

/-- Lines 206 and 223: the two conditional saves made before the in-place
loop — defleet (skipped when empty) then update (skipped when empty). -/
def preEmissions (words : List String) (defleetBatch tail : List String) : List Emission :=
  (if (defleetBatch.map projectVehicle).length ≠ 0
    then [Emission.defleet (defleetBatch.map projectVehicle)] else [])
  ++ (if (updateDataOf words tail).length ≠ 0
    then [Emission.update (updateDataOf words tail)] else [])

/-- Lines 266-282: the five unconditional writes made after the in-place
loop, in source order — error, infleet, fleet, history, then the merged CSV. -/
def postEmissions (words : List String) (tail mutated newRecords : List String) :
    List Emission :=
  [Emission.error (errorRecordsOf newRecords),
   Emission.infleet (infleetRecordsOf newRecords),
   Emission.fleet (fleetRecordsOf newRecords),
   Emission.history (infleetRecordsOf newRecords ++ updateDataOf words tail),
   Emission.merged (mergedText mutated newRecords)]

/-- Lines 177-284, the whole reconciliation given yesterday's text (or
`none`), today's CSV text, and the word list: the list of output writes in
order, paired with `true` when the run completed and `false` when the
in-place loop threw. -/
def runReconcile (words : List String) (yest : Option String) (todayCsv : String) :
    List Emission × Bool :=
  match updateInPlace words (defleetSplit (loadOldRecords yest)).2 with
  | none => (preEmissions words (defleetSplit (loadOldRecords yest)).1
      (defleetSplit (loadOldRecords yest)).2, false)
  | some mutated =>
    (preEmissions words (defleetSplit (loadOldRecords yest)).1
        (defleetSplit (loadOldRecords yest)).2
      ++ postEmissions words (defleetSplit (loadOldRecords yest)).2 mutated
        (parseCsvRecords todayCsv), true)

/-- Lines 288-291: `parseInt(rawCount, 10)` on an argument that may be
absent (`undefined` coerces to the string `"undefined"`, which parses to
`NaN`): skip leading whitespace, optional sign, then a maximal run of
decimal digits; `none` (`NaN`) when there is no digit. -/
def jsParseInt10 (s : String) : Option Int :=
  let cs := s.data.dropWhile Char.isWhitespace
  let sr : Int × List Char :=
    match cs with
    | '-' :: t => (-1, t)
    | '+' :: t => (1, t)
    | _ => (1, cs)
  let ds := sr.2.takeWhile Char.isDigit
  if ds.isEmpty then none
  else some (sr.1 * (ds.foldl (fun a c => 10 * a + (c.toNat - 48)) 0 : Nat))

/-- `parseInt` applied to `process.argv[2]`, which may be missing. -/
def jsParseIntOpt : Option String → Option Int
  | none => none
  | some s => jsParseInt10 s

/-- Line 290: `fmt = (rawFmt || 'csv').toLowerCase()` — an absent or empty
format argument falls back to `"csv"`. -/
def fmtOf : Option String → String
  | none => toLowerStr "csv"
  | some s => toLowerStr (if s = "" then "csv" else s)

/-- Line 291: the argument check `!(isNaN(count) || !['csv','txt'].includes(fmt))`. -/
def validArgs (rawCount rawFmt : Option String) : Bool :=
  (jsParseIntOpt rawCount).isSome && (fmtOf rawFmt == "csv" || fmtOf rawFmt == "txt")

/-- Lines 288-295: the CLI entry point. `none` means the usage error was
printed and the process exited before `generateAndMerge` was called; `some
(count, fmt)` means the run starts with those arguments. -/
def entryMain (rawCount rawFmt : Option String) : Option (Int × String) :=
  if validArgs rawCount rawFmt then some ((jsParseIntOpt rawCount).getD 0, fmtOf rawFmt)
  else none

/-! ## Concrete inputs used by witnesses and counterexamples -/

/-- A working tail of 5 lines (a snapshot with fewer than 10 usable records
leaves all of them in the tail, since the defleet splice needs 10). -/
def demoShortTail : List String := ["r1,a", "r2,b", "r3,c", "r4,d", "r5,e"]

/-- A working tail of exactly 10 lines. -/
def demoTail : List String :=
  ["t0,a", "t1,a", "t2,a", "t3,a", "t4,a", "t5,a", "t6,a", "t7,a", "t8,a", "t9,a"]

/-- A snapshot whose cleaned text has 18 lines: 1 count header + 17 data
lines. Loading strips the header and the 2 trailing error rows (15 left),
the defleet splice removes the last 10, and a working tail of 5 remains. -/
def c2Snap : String :=
  "99\nr01\nr02\nr03\nr04\nr05\nr06\nr07\nr08\nr09\nr10\nr11\nr12\nr13\nr14\nr15\nr16\nr17"

/-! ## Helper lemmas -/

/-- Writing column `n` (in range or past the end) makes `get? n` return the
written value. -/
theorem setNth_get_self (l : List String) (n : Nat) (v : String) :
    (setNth l n v).get? n = some v := by
  unfold setNth
  split
  · exact List.get?_set_eq_of_lt v ‹n < l.length›
  · rename_i h
    push_neg at h
    rw [List.append_assoc,
      List.get?_append_right (by simpa using h),
      List.get?_append_right (by simp)]
    simp [List.length_replicate]

/-- Characterization of the in-place colour loop for a non-negative start
index: it succeeds and rewrites exactly the records at positions
`s + i, …, s + i + k - 1`, the record at position `m` getting word index
`m - s`. -/
theorem applyColorFrom_spec (words : List String) (s : Nat) :
    ∀ (k i : Nat) (recs : List String), s + i + k ≤ recs.length →
    ∃ res, applyColorFrom words (s : Int) recs i k = some res ∧
      res.length = recs.length ∧
      ∀ m : Nat, res.get? m =
        if s + i ≤ m ∧ m < s + i + k
        then (recs.get? m).map (fun line => transformLine words (m - s) line)
        else recs.get? m := by
  intro k
  induction k with
  | zero =>
    intro i recs _
    exact ⟨recs, rfl, rfl, fun m => by rw [if_neg (by omega)]⟩
  | succ k ih =>
    intro i recs h
    have hlt : s + i < recs.length := by omega
    have hline : recs.get? (s + i) = some (recs.get ⟨s + i, hlt⟩) := List.get?_eq_get hlt
    set line := recs.get ⟨s + i, hlt⟩ with hline_def
    have hidx : jsIndex recs ((s : Int) + (i : Int)) = some line := by
      unfold jsIndex
      rw [if_neg (by omega)]
      have : ((s : Int) + (i : Int)).toNat = s + i := by omega
      rw [this, hline]
    have htoNat : ((s : Int) + (i : Int)).toNat = s + i := by omega
    have hstep : applyColorFrom words (s : Int) recs i (k + 1)
        = applyColorFrom words (s : Int)
            (recs.set (s + i) (transformLine words i line)) (i + 1) k := by
      rw [applyColorFrom, hidx, htoNat]
    obtain ⟨res, h1, h2, h3⟩ := ih (i + 1) (recs.set (s + i) (transformLine words i line))
      (by rw [List.length_set]; omega)
    refine ⟨res, by rw [hstep, h1], by rw [h2, List.length_set], fun m => ?_⟩
    rcases Nat.lt_trichotomy m (s + i) with hm | hm | hm
    · rw [h3 m, if_neg (by omega), if_neg (by omega),
        List.get?_set_ne _ _ (by omega)]
    · subst hm
      rw [h3 (s + i), if_neg (by omega), if_pos (by omega),
        List.get?_set_eq_of_lt _ hlt, hline]
      simp
    · rcases Nat.lt_or_ge m (s + i + (k + 1)) with hm2 | hm2
      · rw [h3 m, if_pos (by omega), if_pos (by omega),
          List.get?_set_ne _ _ (by omega)]
      · rw [h3 m, if_neg (by omega), if_neg (by omega),
          List.get?_set_ne _ _ (by omega)]

/-- The in-place colour loop aborts at its first iteration when the start
index is negative: `oldRecords[start]` is `undefined` and `.split(',')`
throws. -/
theorem applyColorFrom_neg (words : List String) (start : Int) (hstart : start < 0)
    (recs : List String) (k : Nat) :
    applyColorFrom words start recs 0 (k + 1) = none := by
  have hidx : jsIndex recs (start + ((0 : Nat) : Int)) = none := by
    unfold jsIndex
    rw [if_pos (by omega)]
  rw [applyColorFrom, hidx]

/-- For a tail of at least 10 records the in-place loop succeeds, touching
exactly the last 10 lines. -/
theorem updateInPlace_of_ge10 (words tail : List String) (h : 10 ≤ tail.length) :
    ∃ mutated, updateInPlace words tail = some mutated ∧
      mutated.length = tail.length ∧
      ∀ m : Nat, mutated.get? m =
        if tail.length - 10 ≤ m ∧ m < tail.length
        then (tail.get? m).map (fun line => transformLine words (m - (tail.length - 10)) line)
        else tail.get? m := by
  have hstart : updateStartOf tail = ((tail.length - 10 : Nat) : Int) := by
    unfold updateStartOf; omega
  have hbatch : (updateBatchOf tail).length = 10 := by
    unfold updateBatchOf jsSlice
    rw [hstart, if_neg (by omega)]
    rw [List.length_drop]
    omega
  obtain ⟨res, h1, h2, h3⟩ := applyColorFrom_spec words (tail.length - 10) 10 0 tail (by omega)
  refine ⟨res, ?_, h2, fun m => ?_⟩
  · unfold updateInPlace
    rw [hstart, hbatch]
    exact h1
  · rw [h3 m]
    have hcond : (tail.length - 10 + 0 ≤ m ∧ m < tail.length - 10 + 0 + 10)
        ↔ (tail.length - 10 ≤ m ∧ m < tail.length) := by omega
    rw [if_congr hcond rfl rfl]

/-- Every output saved before the in-place loop is a defleet or an update
emission. -/
theorem preEmissions_tags (words : List String) (dB tail : List String) :
    EmissionTag.mergedT ∉ (preEmissions words dB tail).map Emission.tag := by
  unfold preEmissions
  intro hmem
  rw [List.map_append] at hmem
  rcases List.mem_append.mp hmem with h | h <;>
    (split at h <;> simp [Emission.tag] at h)

/-! ## Claims -/

/-- C1: the claim says that a working tail with 1-9 records yields an
UpdateBatch of all of them and the colour override is applied in place
"completing without error; no input size causes the run to fail at this
step". The code violates this: `updateStart = oldRecords.length - 10` is
negative, so the in-place loop at lines 226-231 dereferences
`oldRecords[updateStart + i]`, which is `undefined`, and `.split(',')`
throws a `TypeError`, aborting the run — for every tail size from 1 to 9. -/
theorem C1_update_loop_crashes (words tail : List String)
    (h1 : 1 ≤ tail.length) (h2 : tail.length ≤ 9) :
    updateInPlace words tail = none := by
  have hstart : updateStartOf tail < 0 := by
    unfold updateStartOf; omega
  have hbatch : 1 ≤ (updateBatchOf tail).length := by
    unfold updateBatchOf jsSlice updateStartOf
    rw [if_pos (by omega), List.length_drop]
    omega
  obtain ⟨k, hk⟩ : ∃ k, (updateBatchOf tail).length = k + 1 :=
    ⟨(updateBatchOf tail).length - 1, by omega⟩
  unfold updateInPlace
  rw [hk]
  exact applyColorFrom_neg words _ hstart tail k

/-- C1 witness: a concrete 5-record tail satisfies the hypotheses and the
update step aborts the run. -/
theorem C1_witness :
    (1 ≤ demoShortTail.length ∧ demoShortTail.length ≤ 9) ∧
    updateInPlace ["delta"] demoShortTail = none :=
  ⟨by decide, C1_update_loop_crashes ["delta"] demoShortTail (by decide) (by decide)⟩

/-- C2 counterexample: on a snapshot whose usable tail has 15 records, the
run emits the defleet set and the update set and then fails in the
in-place loop — the claim's "either all outputs or the run fails before
any output is produced" is false. -/
theorem C2_counterexample :
    (runReconcile ["delta"] (some c2Snap) "").2 = false ∧
    (runReconcile ["delta"] (some c2Snap) "").1.map Emission.tag
      = [EmissionTag.defleetT, EmissionTag.updateT] := by
  exact ⟨rfl, rfl⟩

/-- C2 amended: the merged snapshot is written only at the very end of a
successful run (a failed run emits no merged snapshot, leaving the
previous one untouched); a successful run ends with the error, infleet,
fleet, history and merged emissions in that order, but emission is not
all-or-nothing: the defleet and update sets are saved before the failure
point (and are skipped entirely when empty — an empty-snapshot run emits
only the five unconditional outputs). -/
theorem C2_amended (words : List String) (yest : Option String) (today : String) :
    ((runReconcile words yest today).2 = false →
      EmissionTag.mergedT ∉ (runReconcile words yest today).1.map Emission.tag) ∧
    ((runReconcile words yest today).2 = true →
      ∃ pre, (runReconcile words yest today).1.map Emission.tag =
        pre ++ [EmissionTag.errorT, EmissionTag.infleetT, EmissionTag.fleetT,
          EmissionTag.historyT, EmissionTag.mergedT]) ∧
    (runReconcile words none today).1.map Emission.tag =
      [EmissionTag.errorT, EmissionTag.infleetT, EmissionTag.fleetT,
        EmissionTag.historyT, EmissionTag.mergedT] := by
  refine ⟨?_, ?_, rfl⟩
  · intro hf
    cases hu : updateInPlace words (defleetSplit (loadOldRecords yest)).2 with
    | none =>
      simp only [runReconcile, hu]
      exact preEmissions_tags words _ _
    | some mutated =>
      simp only [runReconcile, hu] at hf
      exact absurd hf (by decide)
  · intro ht
    cases hu : updateInPlace words (defleetSplit (loadOldRecords yest)).2 with
    | none =>
      simp only [runReconcile, hu] at ht
      exact absurd ht (by decide)
    | some mutated =>
      simp only [runReconcile, hu, List.map_append]
      exact ⟨_, rfl⟩

/-- C2 witness: at the concrete failing snapshot, the amended theorem shows
no merged snapshot is emitted. -/
theorem C2_witness :
    EmissionTag.mergedT ∉ (runReconcile ["delta"] (some c2Snap) "").1.map Emission.tag :=
  (C2_amended ["delta"] (some c2Snap) "").1 rfl

/-- C3 counterexample: the line `"a,b"` has 2 fields; projected through the
vehicle schema, its colour (column 7) is `undefined` (`none`), not the
empty string — the claim that every schema resolves an out-of-range column
to `""` is false for the vehicle schema. -/
theorem C3_counterexample :
    (projectVehicle "a,b").color = none ∧ (projectVehicle "a,b").color ≠ some "" := by
  exact ⟨rfl, by decide⟩

/-- C3 amended: only the full-schema (error-record) projection, which reads
`cols[idx] || ''`, resolves an out-of-range column index to the empty
string; the vehicle-schema projection used for DefleetBatch, UpdateBatch
and InfleetRecords yields `undefined` (`none`) there — neither ever
throws. -/
theorem C3_amended :
    (∀ (cols : List String) (i : Nat), cols.length ≤ i →
      errGet cols i = "" ∧ colAt cols i = none) ∧
    (projectError "a,b").vehicle_erac = "" ∧
    (projectVehicle "a,b").vin = none := by
  refine ⟨fun cols i h => ?_, rfl, rfl⟩
  have hnone : colAt cols i = none := List.get?_eq_none.mpr h
  exact ⟨by rw [errGet, hnone]; rfl, hnone⟩

/-- C3 witness: the amended theorem applied at an empty column list. -/
theorem C3_witness : errGet [] 5 = "" ∧ colAt [] 5 = none :=
  C3_amended.1 [] 5 (by decide)

/-- C4: the merged snapshot is exactly one header line — the string-rendered
integer `(mutated tail length) + (New Batch length)` — followed by the
mutated tail lines in order, followed by the New Batch lines in order;
the text written to disk is those lines joined by newlines. -/
theorem C4_merged_shape (tail newB : List String) :
    (mergedLines tail newB).length = 1 + tail.length + newB.length ∧
    (mergedLines tail newB).head? = some (toString (tail.length + newB.length)) ∧
    ((mergedLines tail newB).drop 1).take tail.length = tail ∧
    (mergedLines tail newB).drop (1 + tail.length) = newB ∧
    mergedText tail newB = joinWith '\n' (mergedLines tail newB) := by
  refine ⟨?_, rfl, ?_, ?_, rfl⟩
  · simp [mergedLines]
    omega
  · show (tail ++ newB).take tail.length = tail
    exact List.take_left tail newB
  · have h : 1 + tail.length = tail.length + 1 := by omega
    rw [h]
    show (tail ++ newB).drop tail.length = newB
    exact List.drop_left tail newB

/-- The Snapshot Partitioner exactly as the spec words it (§4.3), for
comparison with the code's `loadOldRecords` + `defleetSplit`: split into
non-empty trimmed lines; if at least one line exists discard the first; if
at least 2 remain discard the last 2; DefleetBatch is the last 10 of what
remains (removed from the tail) or empty if fewer than 10 remain; an
absent snapshot gives an empty tail. -/
def partitionerSpec : Option String → List String × List String
  | none => ([], [])
  | some text =>
    let ls1 := if 1 ≤ (cleanLines text).length
      then (cleanLines text).drop 1 else cleanLines text
    let ls2 := if 2 ≤ ls1.length then ls1.take (ls1.length - 2) else ls1
    if 10 ≤ ls2.length then (ls2.drop (ls2.length - 10), ls2.take (ls2.length - 10))
    else ([], ls2)

/-- C5: the code's snapshot partition (header shift, trailing-2 strip,
defleet splice) agrees with the spec's step-by-step description on every
input, and an absent snapshot yields an empty tail rather than an error.
(The code's `raw.shift()` is unconditional, but on an empty line list it is
a no-op, which is exactly the spec's "if at least one line exists, discard
the first".) -/
theorem C5_partitioner (yest : Option String) :
    defleetSplit (loadOldRecords yest) = partitionerSpec yest ∧
    loadOldRecords none = [] := by
  refine ⟨?_, rfl⟩
  cases yest with
  | none => rfl
  | some text =>
    have h1 : (if 1 ≤ (cleanLines text).length
        then (cleanLines text).drop 1 else cleanLines text)
        = (cleanLines text).drop 1 := by
      cases cleanLines text <;> simp
    simp only [partitionerSpec, loadOldRecords, defleetSplit, h1]

/-- Reading entry `i` of the update projection gives the update record built
from batch line `i`. -/
theorem updateDataOf_get? (words tail : List String) (i : Nat)
    (hi : i < (updateBatchOf tail).length) :
    (updateDataOf words tail).get? i
      = some (projectUpdate words i ((updateBatchOf tail).get ⟨i, hi⟩)) := by
  unfold updateDataOf
  rw [List.get?_map, List.get?_enum, List.get?_eq_get hi]
  rfl

/-- C6: for every update-batch record at 0-based position `i`, its colour is
`wordList[i mod wordList.length]` (well-defined for a non-empty word list);
and for a tail of at least 10 records, the in-place loop rewrites exactly
the corresponding tail line — column 7 of its column list becomes that same
word — and that rewritten line is what appears at the corresponding
position of the merged snapshot. -/
theorem C6_color_override (words tail newB : List String) (hw : words ≠ []) :
    (∀ i, i < (updateBatchOf tail).length →
      ∃ r, (updateDataOf words tail).get? i = some r ∧
        r.color = words.get? (i % words.length) ∧
        (words.get? (i % words.length)).isSome = true) ∧
    (10 ≤ tail.length → ∀ i, i < 10 →
      ∃ mutated line, updateInPlace words tail = some mutated ∧
        tail.get? (tail.length - 10 + i) = some line ∧
        mutated.get? (tail.length - 10 + i) = some (transformLine words i line) ∧
        colAt (setNth (splitCols line) 7 ((words.get? (i % words.length)).getD "")) 7
          = words.get? (i % words.length) ∧
        (mergedLines mutated newB).get? (1 + (tail.length - 10 + i))
          = mutated.get? (tail.length - 10 + i)) := by
  have hlen : 0 < words.length := List.length_pos.mpr hw
  have hmod : ∀ i : Nat, i % words.length < words.length := fun i => Nat.mod_lt i hlen
  have hsome : ∀ i : Nat, (words.get? (i % words.length)).isSome = true := fun i => by
    rw [List.get?_eq_get (hmod i)]; rfl
  constructor
  · intro i hi
    exact ⟨_, updateDataOf_get? words tail i hi, rfl, hsome i⟩
  · intro h10 i hi
    obtain ⟨mutated, hm, hlenm, hchar⟩ := updateInPlace_of_ge10 words tail h10
    have hpos : tail.length - 10 + i < tail.length := by omega
    have hline : tail.get? (tail.length - 10 + i)
        = some (tail.get ⟨tail.length - 10 + i, hpos⟩) := List.get?_eq_get hpos
    refine ⟨mutated, tail.get ⟨tail.length - 10 + i, hpos⟩, hm, hline, ?_, ?_, ?_⟩
    · rw [hchar, if_pos (by omega), hline]
      have hidx : tail.length - 10 + i - (tail.length - 10) = i := by omega
      rw [hidx]
      rfl
    · unfold colAt
      rw [setNth_get_self, List.get?_eq_get (hmod i)]
      rfl
    · have h1 : 1 + (tail.length - 10 + i) = (tail.length - 10 + i) + 1 := by omega
      rw [h1]
      unfold mergedLines
      rw [List.get?_cons_succ]
      exact List.get?_append (by omega)

/-- C6 witness: with the default single-word list and a concrete 10-line
tail, record 0 of the update batch has colour `"delta"`. -/
theorem C6_witness :
    ∃ r, (updateDataOf ["delta"] demoTail).get? 0 = some r ∧
      r.color = some "delta" ∧ (some "delta" : Option String).isSome = true :=
  (C6_color_override ["delta"] demoTail [] (by decide)).1 0 (by decide)

/-- C7: ErrorRecords is exactly the last 2 New-Batch lines (fewer when the
batch is shorter, never an error) projected through the full schema;
InfleetRecords is exactly the rest, projected through the vehicle schema —
the two line sets partition the New Batch; and FleetRecords is
InfleetRecords stripped to plate number + plate state, record by record,
with nothing else changed. -/
theorem C7_classifier (newB : List String) :
    errorRecordsOf newB = (newB.drop (newB.length - 2)).map projectError ∧
    (errorRecordsOf newB).length = min 2 newB.length ∧
    infleetRecordsOf newB = (newB.take (newB.length - 2)).map projectVehicle ∧
    newB.take (newB.length - 2) ++ newB.drop (newB.length - 2) = newB ∧
    (fleetRecordsOf newB).length = (infleetRecordsOf newB).length ∧
    ∀ i, (fleetRecordsOf newB).get? i = ((infleetRecordsOf newB).get? i).map fleetOf := by
  have hdrop : jsSlice newB (-2) = newB.drop (newB.length - 2) := by
    unfold jsSlice
    rw [if_pos (by omega)]
    congr 1
    omega
  have htake : jsSliceTo newB (-2) = newB.take (newB.length - 2) := by
    unfold jsSliceTo
    rw [if_pos (by omega)]
    congr 1
    omega
  refine ⟨by rw [errorRecordsOf, hdrop], ?_, by rw [infleetRecordsOf, htake],
    List.take_append_drop _ _, by simp [fleetRecordsOf],
    fun i => by rw [fleetRecordsOf, List.get?_map]⟩
  rw [errorRecordsOf, hdrop, List.length_map, List.length_drop]
  omega

/-- C8 counterexample: the count argument `"-5"` — out of range for a
generation count, which the generator consumes as `for i = 1..count`
(producing nothing for a negative value) — is accepted by the entry point:
`parseInt` yields `-5`, the check passes, and the run starts. -/
theorem C8_counterexample :
    entryMain (some "-5") (some "csv") = some (-5, "csv") ∧ (-5 : Int) < 0 := by
  exact ⟨by decide, by decide⟩

/-- C8 amended: the entry point rejects exactly a count argument with no
parseable integer prefix (`parseInt` gives `NaN`) or a format argument
other than `csv`/`txt` — reporting the usage error and not starting the
run; it has no separate range check, so any parseable count (negative,
zero, or with trailing garbage) starts the run. -/
theorem C8_amended (rawCount rawFmt : Option String)
    (h : jsParseIntOpt rawCount = none ∨ (fmtOf rawFmt ≠ "csv" ∧ fmtOf rawFmt ≠ "txt")) :
    entryMain rawCount rawFmt = none := by
  have hv : ¬ (validArgs rawCount rawFmt = true) := by
    intro hv
    unfold validArgs at hv
    rw [Bool.and_eq_true] at hv
    rcases h with h | ⟨h1, h2⟩
    · rw [h] at hv
      exact absurd hv.1 (by decide)
    · rcases Bool.or_eq_true_iff.mp hv.2 with hf | hf
      · exact h1 (eq_of_beq hf)
      · exact h2 (eq_of_beq hf)
  simp only [entryMain, if_neg hv]

/-- C8 witness: a non-numeric count argument is rejected. -/
theorem C8_witness : entryMain (some "abc") (some "csv") = none :=
  C8_amended (some "abc") (some "csv") (Or.inl (by decide))

/-- C9: the reconciliation is deterministic in its inputs — two runs with
equal word lists, equal prior snapshot texts and equal New-Batch texts
produce identical emission sequences (including the byte-identical merged
snapshot text) and identical success flags. -/
theorem C9_deterministic (w₁ w₂ : List String) (y₁ y₂ : Option String) (t₁ t₂ : String)
    (hw : w₁ = w₂) (hy : y₁ = y₂) (ht : t₁ = t₂) :
    runReconcile w₁ y₁ t₁ = runReconcile w₂ y₂ t₂ := by
  rw [hw, hy, ht]

/-- C9 witness: the determinism theorem at concrete inputs. -/
theorem C9_witness : runReconcile ["delta"] none "" = runReconcile ["delta"] none "" :=
  C9_deterministic ["delta"] ["delta"] none none "" "" rfl rfl rfl

/-- C10: before classification the New-Batch text is reduced to its trimmed
lines with blank lines and pure-digit lines removed (so a pure-integer
record line never reaches ErrorRecords, InfleetRecords, FleetRecords, the
merged body, or the merged count, all of which are built from
`parseCsvRecords`); the snapshot loader applies no such digit filter — a
digit line survives into the loaded tail. -/
theorem C10_digit_line_filter :
    (∀ text, parseCsvRecords text = (cleanLines text).filter (fun l => !(isDigitLine l))) ∧
    (∀ text, (parseCsvRecords text).all (fun l => !(isDigitLine l)) = true) ∧
    "123" ∈ loadOldRecords (some "5\n123\na,b\nc,d\ne,f") ∧
    isDigitLine "123" = true := by
  have h1 : ∀ text,
      parseCsvRecords text = (cleanLines text).filter (fun l => !(isDigitLine l)) := by
    intro text
    unfold parseCsvRecords cleanLines
    rw [List.filter_filter]
    exact List.filter_congr (fun x _ => Bool.and_comm (x != "") (!(isDigitLine x)))
  refine ⟨h1, fun text => ?_, by decide, by decide⟩
  rw [h1, List.all_eq_true]
  intro x hx
  exact (List.mem_filter.mp hx).2

/-- C10 witness: the filtering law at a concrete New-Batch text. -/
theorem C10_witness :
    parseCsvRecords "a,b\n123" = (cleanLines "a,b\n123").filter (fun l => !(isDigitLine l)) :=
  C10_digit_line_filter.1 "a,b\n123"

end FleetGen
